import Mathlib

/-!
Verification of the transaction ingestion engine of Factoshi/factom-accounts
against its natural-language specification.

The definitions below are a shallow embedding of `src/lib/transaction.ts` and
`src/lib/config.ts`.  Pure functions are translated directly; the database table
(`src/lib/db.ts`), the factom event pipeline (`src/lib/factom.ts`) and the small
utilities (`src/lib/utils.ts`) are not part of the sources provided, so those
parts are modelled from the specification; each such definition carries a doc
comment starting with `Modelled from the spec:`.

Machine numbers are modelled as `Nat` (heights, timestamps, factoshi amounts)
and amounts in display units as `ℚ` (the JavaScript float arithmetic
`sum * Math.pow(10, -8)` is exact on the integer sums that occur here).
-/

/-! ## Data model (src/lib/types.ts is not under src/; shapes follow the spec §3
and their uses in src/lib/transaction.ts and src/lib/config.ts) -/

/-- One factoid output of a transaction: a destination address and an amount in
factoshis (integer base units). -/
structure FactoidOutput where
  address : String
  amount : Nat
deriving DecidableEq

/-- Block context attached by the factom client to a transaction fetched inside
a directory block. -/
structure BlockContext where
  directoryBlockHeight : Nat
deriving DecidableEq

/-- A factoid transaction as consumed by `saveNewTransaction`:
id, timestamp in milliseconds, total input amount, outputs, block context. -/
structure Transaction where
  id : String
  timestamp : Nat
  totalInputs : Nat
  factoidOutputs : List FactoidOutput
  blockContext : BlockContext
deriving DecidableEq

/-- Per-address configuration (fields per the joi `addressConfigSchema` in
src/lib/config.ts plus the `currency` field read by `formatIncomeTransaction`). -/
structure AddressConfig where
  address : String
  name : String
  coinbase : Bool
  nonCoinbase : Bool
  currency : String
deriving DecidableEq

/-- A row of the transaction table as built by `formatIncomeTransaction`. -/
structure TransactionRow where
  address : String
  timestamp : Nat
  date : String
  txhash : String
  height : Nat
  symbol : String
  currency : String
  receivedFCT : ℚ
deriving DecidableEq

/-- A directory block: its height and the factoid transactions it contains. -/
structure Block where
  height : Nat
  transactions : List Transaction
deriving DecidableEq

/-- A block is well formed when every transaction it carries has its block
context pointing at the block's own height (guaranteed by the factom client). -/
def Block.wellFormed (b : Block) : Prop :=
  ∀ tx ∈ b.transactions, tx.blockContext.directoryBlockHeight = b.height

instance (b : Block) : Decidable b.wellFormed := by
  unfold Block.wellFormed; infer_instance

/-! ## ISO date formatting

`formatIncomeTransaction` calls the JavaScript `new Date(ms).toISOString()`.
That platform function is modelled here for nonnegative epoch milliseconds
(proleptic Gregorian calendar, `YYYY-MM-DDTHH:mm:ss.sssZ`). -/

/-- Left-pad the decimal representation of `n` with zeros to `width` digits. -/
def padZeros (width n : Nat) : String :=
  let s := toString n
  String.mk (List.replicate (width - s.length) '0') ++ s

/-- Convert a count of days since 1970-01-01 to a Gregorian (year, month, day). -/
def civilFromDays (z : Nat) : Nat × Nat × Nat :=
  let zz := z + 719468
  let era := zz / 146097
  let doe := zz % 146097
  let yoe := (doe - doe / 1460 + doe / 36524 - doe / 146096) / 365
  let y := yoe + era * 400
  let doy := doe - (365 * yoe + yoe / 4 - yoe / 100)
  let mp := (5 * doy + 2) / 153
  let d := doy - (153 * mp + 2) / 5 + 1
  let m := if mp < 10 then mp + 3 else mp - 9
  ((if m ≤ 2 then y + 1 else y), m, d)

/-- Modelled from the spec: the isoDate field is "derived from the same instant"
as the millisecond timestamp; this is JavaScript `Date.prototype.toISOString`
restricted to nonnegative epoch milliseconds. -/
def toISOString (millis : Nat) : String :=
  let ms := millis % 1000
  let totalSeconds := millis / 1000
  let s := totalSeconds % 60
  let mi := totalSeconds / 60 % 60
  let h := totalSeconds / 3600 % 24
  let ymd := civilFromDays (totalSeconds / 86400)
  padZeros 4 ymd.1 ++ "-" ++ padZeros 2 ymd.2.1 ++ "-" ++ padZeros 2 ymd.2.2 ++
    "T" ++ padZeros 2 h ++ ":" ++ padZeros 2 mi ++ ":" ++ padZeros 2 s ++
    "." ++ padZeros 3 ms ++ "Z"

/-! ## The classifier (src/lib/transaction.ts) -/

/-- The factor `Math.pow(10, -8)` from `sumFCToutputs`: factoshis to FCT. -/
def fctScale : ℚ := (10 : ℚ) ^ (-8 : ℤ)

/-- `sumFCToutputs` from src/lib/transaction.ts: filter the factoid outputs by
address, sum their amounts, and convert with `Math.pow(10, -8)`. -/
def sumFCToutputs (transaction : Transaction) (address : String) : ℚ :=
  ((transaction.factoidOutputs.filter (fun outputs => outputs.address == address)).foldl
      (fun total current => total + current.amount) 0 : Nat) * fctScale

/-- `formatIncomeTransaction` from src/lib/transaction.ts.  The source computes
`timestamp` as `toInteger(tx.timestamp / 1000)`.  `toInteger` lives in
src/lib/utils.ts which is not under src/; modelled from the spec:
`timestamp = floor(transaction.timestampMillis / 1000)`, which for nonnegative
`Nat` milliseconds is truncating division by 1000. -/
def formatIncomeTransaction (tx : Transaction) (conf : AddressConfig)
    (receivedFCT : ℚ) : TransactionRow :=
  { address := conf.address
    timestamp := tx.timestamp / 1000
    date := toISOString tx.timestamp
    txhash := tx.id
    height := tx.blockContext.directoryBlockHeight
    symbol := "FCT"
    currency := conf.currency
    receivedFCT := receivedFCT }

/-- The pure part of `saveNewTransaction` from src/lib/transaction.ts: decide
whether the transaction yields an income row for this address config, and if so
which row.  (The database insert that the source then performs is modelled
separately below.) -/
def saveNewTransaction (conf : AddressConfig) (tx : Transaction) :
    Option TransactionRow :=
  let isCoinbase := tx.totalInputs == 0
  if (isCoinbase && !conf.coinbase) || (!isCoinbase && !conf.nonCoinbase) then
    none
  else
    let received := sumFCToutputs tx conf.address
    if received = 0 then
      none
    else
      some (formatIncomeTransaction tx conf received)

/-! ## The scan loop (emitNewTransactions, src/lib/transaction.ts) -/

/-- Auxiliary recursor for `scanRange`, structural on a fuel argument so that
applications reduce in the kernel; `fuel` is always at least the number of
remaining iterations. -/
def scanRangeFuel : Nat → Nat → Nat → List Nat
  | 0, _, _ => []
  | fuel + 1, i, stop => if i ≤ stop then i :: scanRangeFuel fuel (i + 1) stop else []

/-- The heights visited by the loop `for (let i = start; i <= stop; i++)` of
`emitNewTransactions`, in visit order (see `scanRange_eq` for the loop-shaped
unfolding). -/
def scanRange (i stop : Nat) : List Nat :=
  scanRangeFuel (stop + 1 - i) i stop

/-- The heights fetched by one pass of `emitNewTransactions` given the stored
maximum height `m` (from `db.getMaxHeight()`), the configured start height, and
the chain tip `stop`: the source sets
`startHeight = m > configStartHeight ? m : configStartHeight` and loops from
`startHeight + 1` to `stopHeight`. -/
def emitScanHeights (m configStartHeight stop : Nat) : List Nat :=
  scanRange ((if m > configStartHeight then m else configStartHeight) + 1) stop

/-! ## The transaction store

src/lib/db.ts is not under src/.  The table is modelled from the spec: a list of
rows with the uniqueness invariant keyed on the (address, txId) pair; insertion
of a row whose key already exists fails with `DuplicateRecord`, leaving the
stored set unchanged, and that failure is absorbed by the ingestion pipeline as
a no-op rather than escalated as fatal. -/

/-- Whether the table already holds a row with the same (address, txhash) key. -/
def rowKeyPresent (table : List TransactionRow) (row : TransactionRow) : Bool :=
  table.any (fun r => r.address == row.address && r.txhash == row.txhash)

/-- Result of a single insert into the transaction table. -/
inductive InsertOutcome
  | inserted
  | duplicateRecord
deriving DecidableEq

/-- Modelled from the spec: `insertUncommittedTransaction` (src/lib/db.ts, not
under src/) fails with `DuplicateRecord` when the (address, txId) pair already
exists, leaving the table unchanged; otherwise it appends the row. -/
def insertUncommittedTransaction (table : List TransactionRow)
    (row : TransactionRow) : InsertOutcome × List TransactionRow :=
  if rowKeyPresent table row then (.duplicateRecord, table)
  else (.inserted, table ++ [row])

/-- Observable outcome of feeding one transaction through classification and
storage.  `fatalExit` models `process.exit` with the given code; it is the
outcome reserved for store write failures other than `DuplicateRecord`. -/
inductive SaveOutcome
  | saved
  | skippedFilter
  | duplicateNoOp
  | fatalExit (code : Nat)
deriving DecidableEq

/-- `saveNewTransaction` followed by the store insert: the classifier decides
whether a row is produced; a produced row is inserted, and a `DuplicateRecord`
failure is absorbed as a no-op (modelled from the spec; the absorbing code is in
the event pipeline and store, neither of which is under src/). -/
def saveNewTransactionDb (conf : AddressConfig) (table : List TransactionRow)
    (tx : Transaction) : SaveOutcome × List TransactionRow :=
  match saveNewTransaction conf tx with
  | none => (.skippedFilter, table)
  | some row =>
    match insertUncommittedTransaction table row with
    | (.duplicateRecord, t) => (.duplicateNoOp, t)
    | (.inserted, t) => (.saved, t)

/-- The rows a block contributes: for each address config and each transaction
of the block, the row produced by `saveNewTransaction`, in the source's
per-address, per-transaction order (the event pipeline of src/lib/factom.ts is
not under src/; this composition is modelled from the spec §4.2). -/
def classifyBlock (confs : List AddressConfig) (b : Block) :
    List TransactionRow :=
  confs.foldr
    (fun conf acc =>
      b.transactions.filterMap (fun tx => saveNewTransaction conf tx) ++ acc)
    []

/-- Insert a list of rows one by one, skipping rows whose key is a duplicate. -/
def insertAll (table : List TransactionRow) (rows : List TransactionRow) :
    List TransactionRow :=
  rows.foldl (fun t r => (insertUncommittedTransaction t r).2) table

/-- The intermediate tables after each single insert of `insertAll`, in order.
A crash may happen after any prefix of the inserts; these are the states it can
leave behind. -/
def insertTrace (table : List TransactionRow) :
    List TransactionRow → List (List TransactionRow)
  | [] => []
  | r :: rs =>
    let t := (insertUncommittedTransaction table r).2
    t :: insertTrace t rs

/-! ## Fetching with retries (axios-retry as configured in src/lib/transaction.ts) -/

/-- Errors a block or tip fetch can surface. -/
inductive FetchError
  | NotFound
  | UpstreamUnavailable
deriving DecidableEq

/-- The retry count configured in src/lib/transaction.ts:
`axiosRetry(axios, { retries: 2, retryDelay: exponentialDelay })`. -/
def retries : Nat := 2

/-- Modelled from the spec: the delay before retry number `n` under the
configured `exponentialDelay` policy — a base delay (100 ms) doubling on each
successive attempt (the axios-retry library is a third-party dependency, not
code of this repository). -/
def exponentialDelay (retryNumber : Nat) : Nat := 100 * 2 ^ retryNumber

/-- Modelled from the spec: retry semantics of the configured axios-retry
wrapper.  `oracle a` is the result of attempt number `a`.  Transient errors
(`UpstreamUnavailable`) are retried while the budget lasts; `NotFound` is
non-retryable and propagates immediately; a success returns immediately. -/
def retryFetch (oracle : Nat → Except FetchError Block)
    (attemptIdx : Nat) : Nat → Except FetchError Block
  | 0 => oracle attemptIdx
  | remaining + 1 =>
    match oracle attemptIdx with
    | .ok b => .ok b
    | .error .NotFound => .error .NotFound
    | .error .UpstreamUnavailable => retryFetch oracle (attemptIdx + 1) remaining

/-- A block fetch with the configured retry budget (`retries = 2`, so at most
three attempts). -/
def getBlockWithRetry (oracle : Nat → Except FetchError Block) :
    Except FetchError Block :=
  retryFetch oracle 0 retries

/-- Number of attempts `retryFetch` consumes. -/
def attemptsUsed (oracle : Nat → Except FetchError Block)
    (attemptIdx : Nat) : Nat → Nat
  | 0 => 1
  | remaining + 1 =>
    match oracle attemptIdx with
    | .ok _ => 1
    | .error .NotFound => 1
    | .error .UpstreamUnavailable => 1 + attemptsUsed oracle (attemptIdx + 1) remaining

/-- Whether a fetch result is a success. -/
def fetchOk (e : Except FetchError Block) : Bool :=
  match e with
  | .ok _ => true
  | .error _ => false

/-! ## The scan engine over a fetch oracle -/

/-- Terminal outcome of one scan pass of `emitNewTransactions`: the loop either
runs off the end of the range (the source logs `Scan complete`) or some fetch
in the `try` block throws and the `catch` runs `process.exit(1)`. -/
inductive ScanOutcome
  | caughtUp
  | fatalExit (code : Nat)
deriving DecidableEq

/-- Engine-visible store state: the committed scan cursor (`db.getMaxHeight()`,
modelled from the spec §4.3 as advancing only when a height is fully persisted)
and the stored rows. -/
structure EngineState where
  cursor : Nat
  table : List TransactionRow
deriving DecidableEq

/-- One scan pass over an explicit list of heights.  `oracle i a` is the result
of attempt `a` of fetching the directory block at height `i`.  A successful
fetch feeds the block through classification and storage and commits the
cursor to `i`; any fetch error reaching the loop aborts the pass through the
source's `catch` with `process.exit(1)`, leaving the store state as it was. -/
def runScanHeights (oracle : Nat → Nat → Except FetchError Block)
    (confs : List AddressConfig) :
    List Nat → EngineState → ScanOutcome × EngineState
  | [], st => (.caughtUp, st)
  | i :: rest, st =>
    match getBlockWithRetry (oracle i) with
    | .ok b =>
      runScanHeights oracle confs rest
        ⟨i, insertAll st.table (classifyBlock confs b)⟩
    | .error _ => (.fatalExit 1, st)

/-- One pass of `emitNewTransactions` over the fetch oracle: loop from
`startHeight + 1` to the tip. -/
def runScanRetry (oracle : Nat → Nat → Except FetchError Block)
    (confs : List AddressConfig) (st : EngineState) (i stop : Nat) :
    ScanOutcome × EngineState :=
  runScanHeights oracle confs (scanRange i stop) st

/-! ## Micro-step trace of a scan pass (for crash interleavings) -/

/-- All intermediate store states of a scan pass over the given heights: after
every single row insert (cursor unchanged) and after every height commit
(cursor advanced to the height, modelled from the spec §4.3: `commitHeight` is
atomic and runs only after all of the height's rows are inserted).  A crash at
any point leaves some prefix of this trace as the final durable state. -/
def scanTraceHeights (blocks : Nat → Block) (confs : List AddressConfig) :
    List Nat → EngineState → List EngineState
  | [], _ => []
  | i :: rest, st =>
    let rows := classifyBlock confs (blocks i)
    let committed : EngineState := ⟨i, insertAll st.table rows⟩
    (insertTrace st.table rows).map (fun t => ⟨st.cursor, t⟩) ++
      committed :: scanTraceHeights blocks confs rest committed

/-- The micro-step trace of one scan pass resuming from `st`: the heights are
`st.cursor + 1` up to `stop`, as in `emitNewTransactions`. -/
def scanTrace (blocks : Nat → Block) (confs : List AddressConfig)
    (st : EngineState) (stop : Nat) : List EngineState :=
  scanTraceHeights blocks confs (scanRange (st.cursor + 1) stop) st

/-- A store state is complete when, for every height at or below the cursor,
every row that classification of that height's block yields is durably present
(up to the (address, txId) uniqueness key of the store). -/
def complete (blocks : Nat → Block) (confs : List AddressConfig)
    (st : EngineState) : Prop :=
  ∀ h, h ≤ st.cursor →
    ∀ r ∈ classifyBlock confs (blocks h), rowKeyPresent st.table r = true

/-! ## Configuration loading (src/lib/config.ts, READ CONFIG section)

The joi schemas and the `Config` constructor are embedded below.  The YAML text
itself is abstracted: the model starts from the value `yaml.safeLoad` would
return, with `Option` marking fields the file may omit; reading or parsing
failures are an `Except.error` input.  joi's type checks are absorbed by the
typing of `RawConfig`; its presence checks, length/format checks, and defaults
are translated explicitly. -/

/-- Connection parameters for a factomd node (`factomdConfigSchema`). -/
structure FactomdConfig where
  host : String
  port : Nat
  path : String
  protocol : String
deriving DecidableEq

/-- The `keys` section (`keySchema`). -/
structure KeyConfig where
  cryptocompare : String
  bitcoinTax : Bool
  bitcoinTaxSecret : Option String
  bitcoinTaxKey : Option String
deriving DecidableEq

/-- The `options` section as supplied in the file (`optionsSchema` input). -/
structure RawOptions where
  currency : Option String
  startHeight : Option Nat
deriving DecidableEq

/-- The `options` value after validation.  `currency` stays optional because
the schema-level default object `{ startHeight: 143400, minTime: 500 }` is
applied verbatim by joi and carries no currency. -/
structure OptionsConfig where
  currency : Option String
  startHeight : Nat
deriving DecidableEq

/-- The parsed YAML document before validation. -/
structure RawConfig where
  factomd : Option FactomdConfig
  keys : Option KeyConfig
  addresses : Option (List AddressConfig)
  options : Option RawOptions
deriving DecidableEq

/-- The value joi validation yields on success. -/
structure ValidatedConfig where
  factomd : FactomdConfig
  keys : Option KeyConfig
  addresses : List AddressConfig
  options : OptionsConfig
deriving DecidableEq

/-- `Joi.factom().factoidAddress('public')`: a public factoid address.  The
joi-factom extension is a third-party dependency; modelled as the standard
shape of such addresses, the prefix `FA` followed by 50 base58 characters
(total length 52). -/
def isValidPublicFctAddress (s : String) : Bool :=
  s.length == 52 && (s.take 2 == "FA")

/-- Whether an entry of the `addresses` array satisfies `addressConfigSchema`
(`name` is a required non-empty joi string; booleans are enforced by typing). -/
def validAddressEntry (a : AddressConfig) : Bool :=
  isValidPublicFctAddress a.address && (a.name.length != 0)

/-- Whether an alphanumeric string field has exactly the required length
(joi `.alphanum().length(n)`, with the length check modelled). -/
def validHexField (n : Nat) (s : String) : Bool :=
  s.length == n

/-- Whether a supplied `keys` section satisfies `keySchema`: `cryptocompare`
is a required 64-character string; `bitcoinTaxSecret` and `bitcoinTaxKey` are
optional but must have length 32 and 16 respectively when present. -/
def validKeys (k : KeyConfig) : Bool :=
  validHexField 64 k.cryptocompare &&
    (match k.bitcoinTaxSecret with
      | none => true
      | some s => validHexField 32 s) &&
    (match k.bitcoinTaxKey with
      | none => true
      | some s => validHexField 16 s)

/-- The default factomd connection applied by `configSchema` when the file has
no `factomd` section. -/
def defaultFactomd : FactomdConfig :=
  { host := "api.factomd.net", port := 443, path := "/v2", protocol := "https" }

/-- Validate the `options` section (`optionsSchema` with the schema-level
default object): absent section → `{ startHeight := 143400 }` with no currency;
present section → `currency` required, alphanumeric uppercase length 3, and
`startHeight` a positive number defaulting to 143400. -/
def validateOptions (o : Option RawOptions) : Except String OptionsConfig :=
  match o with
  | none => .ok { currency := none, startHeight := 143400 }
  | some o =>
    match o.currency with
    | none => .error "currency is required"
    | some c =>
      if c.length != 3 then .error "currency length" else
      match o.startHeight with
      | none => .ok { currency := some c, startHeight := 143400 }
      | some h =>
        if h = 0 then .error "startHeight must be positive"
        else .ok { currency := some c, startHeight := h }

/-- The joi validation step `Joi.validate(config, configSchema)` from the
`Config` constructor: `factomd` defaults to OpenNode, `keys` is optional with
no default, `addresses` is required and must contain at least one entry that
matches `addressConfigSchema` (`Joi.array().has(...)`), and `options` gets its
default object. -/
def validateConfig (raw : RawConfig) : Except String ValidatedConfig :=
  match raw.addresses with
  | none => .error "addresses is required"
  | some addrs =>
    if !addrs.any validAddressEntry then
      .error "addresses must have a valid entry"
    else
      match raw.keys with
      | some k =>
        if !validKeys k then .error "invalid keys section" else
        match validateOptions raw.options with
        | .error e => .error e
        | .ok opts =>
          .ok { factomd := raw.factomd.getD defaultFactomd
                keys := some k
                addresses := addrs
                options := opts }
      | none =>
        match validateOptions raw.options with
        | .error e => .error e
        | .ok opts =>
          .ok { factomd := raw.factomd.getD defaultFactomd
                keys := none
                addresses := addrs
                options := opts }

/-- What the `Config` constructor observably does: either the process exits
with code 1 (every `catch` path logs and calls `process.exit(1)`), or the
fields are assigned. -/
inductive ConfigOutcome
  | exit1
  | ok (factomd : FactomdConfig) (addresses : List AddressConfig)
      (keys : KeyConfig) (options : OptionsConfig)
deriving DecidableEq

/-- The `Config` constructor from src/lib/config.ts.  The input is the result
of `fs.readFileSync` + `yaml.safeLoad` (an `Except.error` for an unreadable or
unparsable file).  After successful joi validation the source evaluates
`value.keys.bitcoinTax`; when the optional `keys` section is absent that member
access throws a `TypeError`, which the surrounding `catch` turns into
`process.exit(1)` just like every other failure. -/
def constructConfig (readResult : Except String RawConfig) : ConfigOutcome :=
  match readResult with
  | .error _ => .exit1
  | .ok raw =>
    match validateConfig raw with
    | .error _ => .exit1
    | .ok v =>
      match v.keys with
      | none => .exit1
      | some k =>
        if (k.bitcoinTax && k.bitcoinTaxSecret.isNone) ||
            (k.bitcoinTax && k.bitcoinTaxKey.isNone) then
          .exit1
        else
          .ok v.factomd v.addresses k v.options

/-! ## Helper lemmas -/

theorem scanRangeFuel_congr (f₁ : Nat) :
    ∀ f₂ i stop, stop + 1 - i ≤ f₁ → stop + 1 - i ≤ f₂ →
      scanRangeFuel f₁ i stop = scanRangeFuel f₂ i stop := by
  induction f₁ with
  | zero =>
    intro f₂ i stop h₁ _
    cases f₂ with
    | zero => rfl
    | succ f₂ => simp [scanRangeFuel, if_neg (by omega : ¬ i ≤ stop)]
  | succ f₁ ih =>
    intro f₂ i stop h₁ h₂
    cases f₂ with
    | zero => simp [scanRangeFuel, if_neg (by omega : ¬ i ≤ stop)]
    | succ f₂ =>
      simp only [scanRangeFuel]
      by_cases h : i ≤ stop
      · rw [if_pos h, if_pos h, ih f₂ (i + 1) stop (by omega) (by omega)]
      · rw [if_neg h, if_neg h]

/-- The loop-shaped unfolding of `scanRange`. -/
theorem scanRange_eq (i stop : Nat) :
    scanRange i stop = if i ≤ stop then i :: scanRange (i + 1) stop else [] := by
  by_cases h : i ≤ stop
  · rw [if_pos h]
    unfold scanRange
    have h1 : stop + 1 - i = (stop + 1 - (i + 1)) + 1 := by omega
    rw [h1]
    simp only [scanRangeFuel, if_pos h]
  · rw [if_neg h]
    unfold scanRange
    have h1 : stop + 1 - i = 0 := by omega
    rw [h1]
    rfl

theorem scanRange_eq_range' (i stop : Nat) :
    scanRange i stop = List.range' i (stop + 1 - i) := by
  generalize hn : stop + 1 - i = n
  induction n generalizing i with
  | zero =>
    rw [scanRange_eq, if_neg (by omega)]
    rfl
  | succ n ih =>
    rw [scanRange_eq, if_pos (by omega), ih _ (by omega)]
    rfl

/-! ## C1 -/

/-- C1: a scan pass fetches exactly the blocks at heights `max m s + 1` through
`t` inclusive (where `m` is the stored maximum processed height, `s` the
configured start height and `t` the chain tip), in strictly increasing order,
and fetches nothing when `max m s + 1 > t` — including a tip that has
decreased. -/
theorem emitScanHeights_window (m s t : Nat) :
    emitScanHeights m s t = List.range' (max m s + 1) (t - max m s) ∧
    (emitScanHeights m s t).Pairwise (· < ·) ∧
    (∀ h, h ∈ emitScanHeights m s t ↔ max m s + 1 ≤ h ∧ h ≤ t) ∧
    (max m s + 1 > t → emitScanHeights m s t = []) := by
  have hmax : (if m > s then m else s) = max m s := by
    rcases Nat.lt_or_ge s m with h | h
    · rw [if_pos h, Nat.max_eq_left (Nat.le_of_lt h)]
    · rw [if_neg (by omega), Nat.max_eq_right h]
  have hbase : emitScanHeights m s t = List.range' (max m s + 1) (t - max m s) := by
    rw [emitScanHeights, hmax, scanRange_eq_range']
    have : t + 1 - (max m s + 1) = t - max m s := by omega
    rw [this]
  refine ⟨hbase, ?_, ?_, ?_⟩
  · rw [hbase]
    exact List.pairwise_lt_range' _ _
  · intro h
    rw [hbase, List.mem_range'_1]
    omega
  · intro hgt
    rw [hbase]
    have : t - max m s = 0 := by omega
    rw [this]
    rfl

/-- Witness for C1: with stored cursor 100, configured start height 50 and tip
103, the pass fetches exactly heights 101, 102, 103; with resume height 101
and tip 100, it fetches nothing. -/
theorem emitScanHeights_window_witness :
    emitScanHeights 100 50 103 = List.range' 101 3 ∧
    emitScanHeights 100 0 100 = [] :=
  ⟨(emitScanHeights_window 100 50 103).1,
    (emitScanHeights_window 100 0 100).2.2.2 (by decide)⟩

/-! ## C2 -/

theorem saveNewTransaction_eq (conf : AddressConfig) (tx : Transaction) :
    saveNewTransaction conf tx =
      if (tx.totalInputs = 0 ∧ conf.coinbase = false) ∨
          (¬tx.totalInputs = 0 ∧ conf.nonCoinbase = false) then none
      else if sumFCToutputs tx conf.address = 0 then none
      else some (formatIncomeTransaction tx conf (sumFCToutputs tx conf.address)) := by
  by_cases h1 : tx.totalInputs = 0 <;> by_cases h2 : conf.coinbase <;>
    by_cases h3 : conf.nonCoinbase <;>
      simp [saveNewTransaction, h1, h2, h3]

/-- C2: the classifier treats a transaction as coinbase exactly when
`totalInputs = 0`; it produces no row when the transaction is coinbase and the
config rejects coinbase, or non-coinbase and the config rejects non-coinbase;
and a transaction passing this filter proceeds to the received-amount
computation, whose zero test alone then decides whether a row is produced. -/
theorem saveNewTransaction_classification (conf : AddressConfig)
    (tx : Transaction) :
    saveNewTransaction conf tx =
      if (tx.totalInputs = 0 ∧ conf.coinbase = false) ∨
          (¬tx.totalInputs = 0 ∧ conf.nonCoinbase = false) then none
      else if sumFCToutputs tx conf.address = 0 then none
      else some (formatIncomeTransaction tx conf (sumFCToutputs tx conf.address)) :=
  saveNewTransaction_eq conf tx

/-- Witness for C2: a coinbase transaction (`totalInputs = 0`) under a config
with `coinbase = false` yields no row, and a non-coinbase transaction under a
config with `nonCoinbase = false` yields no row. -/
theorem saveNewTransaction_classification_witness :
    saveNewTransaction ⟨"FAx", "a", false, true, "USD"⟩
        ⟨"t1", 0, 0, [⟨"FAx", 5⟩], ⟨7⟩⟩ = none ∧
    saveNewTransaction ⟨"FAx", "a", true, false, "USD"⟩
        ⟨"t2", 0, 9, [⟨"FAx", 5⟩], ⟨7⟩⟩ = none := by
  constructor
  · rw [saveNewTransaction_classification, if_pos (Or.inl ⟨rfl, rfl⟩)]
  · rw [saveNewTransaction_classification, if_pos (Or.inr ⟨by decide, rfl⟩)]

/-! ## C3 -/

/-- A transaction paying the configured address twice (100000000 and 200000000
factoshis) among other outputs. -/
def aggTx : Transaction :=
  ⟨"tx-agg", 1500000000123, 5,
    [⟨"FAagg", 100000000⟩, ⟨"FAagg", 200000000⟩, ⟨"FAother", 50⟩], ⟨200⟩⟩

/-- Address config accepting everything for the doubly-paid address. -/
def aggConf : AddressConfig := ⟨"FAagg", "payroll", true, true, "USD"⟩

theorem foldl_add_amount (l : List FactoidOutput) (n : Nat) :
    l.foldl (fun total current => total + current.amount) n =
      n + (l.map FactoidOutput.amount).sum := by
  induction l generalizing n with
  | nil => simp
  | cons a l ih => simp [ih]; omega

theorem fctScale_eq : fctScale = 1 / 100000000 := by
  rw [fctScale]; norm_num

theorem sumFCToutputs_as_sum (tx : Transaction) (addr : String) :
    sumFCToutputs tx addr =
      ((((tx.factoidOutputs.filter (fun o => o.address == addr)).map
          FactoidOutput.amount).sum : Nat) : ℚ) * fctScale := by
  rw [sumFCToutputs, foldl_add_amount]
  norm_num

/-- C3: the received amount is the sum of the amounts of exactly those outputs
whose address equals the configured address, scaled by the fixed factor 10⁻⁸;
and a transaction with two outputs to the same configured address yields a
single row whose amount is the scaled sum of both. -/
theorem sumFCToutputs_spec (tx : Transaction) (addr : String) :
    sumFCToutputs tx addr =
      ((((tx.factoidOutputs.filter (fun o => o.address == addr)).map
          FactoidOutput.amount).sum : Nat) : ℚ) * fctScale ∧
    classifyBlock [aggConf] ⟨200, [aggTx]⟩ =
      [formatIncomeTransaction aggTx aggConf
        (((100000000 + 200000000 : Nat) : ℚ) * fctScale)] := by
  refine ⟨sumFCToutputs_as_sum tx addr, ?_⟩
  have hnat : ((aggTx.factoidOutputs.filter
      (fun o => o.address == aggConf.address)).map FactoidOutput.amount).sum
        = 100000000 + 200000000 := by decide
  have hsum : sumFCToutputs aggTx aggConf.address =
      ((100000000 + 200000000 : Nat) : ℚ) * fctScale := by
    rw [sumFCToutputs_as_sum, hnat]
  have hne : sumFCToutputs aggTx aggConf.address ≠ 0 := by
    rw [hsum, fctScale_eq]
    norm_num
  have hrow : saveNewTransaction aggConf aggTx =
      some (formatIncomeTransaction aggTx aggConf
        (((100000000 + 200000000 : Nat) : ℚ) * fctScale)) := by
    rw [saveNewTransaction_eq, if_neg (by decide), if_neg hne, hsum]
  simp [classifyBlock, hrow]

/-- Witness for C3: the doubly-paid address receives `3` FCT in one record. -/
theorem sumFCToutputs_spec_witness :
    classifyBlock [aggConf] ⟨200, [aggTx]⟩ =
      [formatIncomeTransaction aggTx aggConf
        (((100000000 + 200000000 : Nat) : ℚ) * fctScale)] ∧
    ((100000000 + 200000000 : Nat) : ℚ) * fctScale = 3 :=
  ⟨(sumFCToutputs_spec aggTx "FAagg").2, by rw [fctScale_eq]; norm_num⟩

/-! ## C4 -/

/-- C4: when the computed received amount is zero — in particular when no
output of the transaction pays the configured address — no row is produced for
that (address, transaction) pair. -/
theorem saveNewTransaction_zero_received (conf : AddressConfig)
    (tx : Transaction) (h : sumFCToutputs tx conf.address = 0) :
    saveNewTransaction conf tx = none := by
  rw [saveNewTransaction_eq]
  simp [h]

/-- Witness for C4: a transaction whose only output pays a different address
produces no row for the configured address. -/
theorem saveNewTransaction_zero_received_witness :
    saveNewTransaction ⟨"FAmine", "a", true, true, "USD"⟩
      ⟨"t4", 0, 9, [⟨"FAother", 700⟩], ⟨7⟩⟩ = none :=
  saveNewTransaction_zero_received _ _ (by
    rw [sumFCToutputs_as_sum]
    have hz : (((Transaction.mk "t4" 0 9 [⟨"FAother", 700⟩]
        ⟨7⟩).factoidOutputs.filter
          (fun o => o.address == "FAmine")).map FactoidOutput.amount).sum = 0 := by
      decide
    rw [hz]
    norm_num)

/-! ## C5 -/

/-- C5: every row emitted for a transaction that passes both filters carries
`timestamp = floor(timestampMillis / 1000)`, an isoDate derived from the same
millisecond instant, the height of the enclosing block, the fixed asset symbol
`"FCT"`, and the currency of the address configuration. -/
theorem incomeRecord_fields (b : Block) (conf : AddressConfig)
    (tx : Transaction) (r : TransactionRow)
    (hb : b.wellFormed) (htx : tx ∈ b.transactions)
    (h : saveNewTransaction conf tx = some r) :
    r.timestamp = tx.timestamp / 1000 ∧
    r.date = toISOString tx.timestamp ∧
    r.height = b.height ∧
    r.txhash = tx.id ∧
    r.symbol = "FCT" ∧
    r.currency = conf.currency := by
  rw [saveNewTransaction_eq] at h
  split at h
  · exact absurd h (by simp)
  · split at h
    · exact absurd h (by simp)
    · have hr := Option.some.inj h
      subst hr
      exact ⟨rfl, rfl, hb tx htx, rfl, rfl, rfl⟩

/-- Transaction, config, block and row used in the witness for C5. -/
def tx5 : Transaction := ⟨"t5", 1699999999123, 3, [⟨"FAw5", 500⟩], ⟨120⟩⟩

def conf5 : AddressConfig := ⟨"FAw5", "w5", true, true, "EUR"⟩

def b5 : Block := ⟨120, [tx5]⟩

def row5 : TransactionRow :=
  formatIncomeTransaction tx5 conf5 (sumFCToutputs tx5 conf5.address)

theorem tx5_saved : saveNewTransaction conf5 tx5 = some row5 := by
  have hne : sumFCToutputs tx5 conf5.address ≠ 0 := by
    rw [sumFCToutputs_as_sum]
    have h5 : ((tx5.factoidOutputs.filter
        (fun o => o.address == conf5.address)).map FactoidOutput.amount).sum
          = 500 := by decide
    rw [h5, fctScale_eq]
    norm_num
  rw [saveNewTransaction_eq, if_neg (by decide), if_neg hne]
  rfl

/-- Witness for C5: the concrete transaction `tx5` in block 120 yields a row
with all the claimed field values. -/
theorem incomeRecord_fields_witness :
    row5.timestamp = tx5.timestamp / 1000 ∧
    row5.date = toISOString tx5.timestamp ∧
    row5.height = b5.height ∧
    row5.txhash = tx5.id ∧
    row5.symbol = "FCT" ∧
    row5.currency = conf5.currency :=
  incomeRecord_fields b5 conf5 tx5 row5 (by decide) (by decide) tx5_saved

/-! ## C6 -/

/-- C6: when the produced row's (address, txId) key already exists in the
table, the insert fails with `DuplicateRecord` and the pipeline absorbs it as a
no-op: the stored record set is returned unchanged and the outcome is
`duplicateNoOp`, not a fatal termination, so re-scanning a height after a
crash is safe. -/
theorem duplicate_insert_noop (conf : AddressConfig)
    (table : List TransactionRow) (tx : Transaction) (row : TransactionRow)
    (hrow : saveNewTransaction conf tx = some row)
    (hdup : rowKeyPresent table row = true) :
    saveNewTransactionDb conf table tx = (.duplicateNoOp, table) := by
  simp [saveNewTransactionDb, hrow, insertUncommittedTransaction, hdup]

/-- Transaction, config and row used in the witness for C6. -/
def tx6 : Transaction := ⟨"t6", 1000, 4, [⟨"FAw6", 250⟩], ⟨9⟩⟩

def conf6 : AddressConfig := ⟨"FAw6", "w6", true, true, "USD"⟩

def row6 : TransactionRow :=
  formatIncomeTransaction tx6 conf6 (sumFCToutputs tx6 conf6.address)

theorem tx6_saved : saveNewTransaction conf6 tx6 = some row6 := by
  have hne : sumFCToutputs tx6 conf6.address ≠ 0 := by
    rw [sumFCToutputs_as_sum]
    have h6 : ((tx6.factoidOutputs.filter
        (fun o => o.address == conf6.address)).map FactoidOutput.amount).sum
          = 250 := by decide
    rw [h6, fctScale_eq]
    norm_num
  rw [saveNewTransaction_eq, if_neg (by decide), if_neg hne]
  rfl

/-- Witness for C6: re-processing `tx6` against a table that already holds its
row leaves the table unchanged with a non-fatal `duplicateNoOp` outcome. -/
theorem duplicate_insert_noop_witness :
    saveNewTransactionDb conf6 [row6] tx6 = (.duplicateNoOp, [row6]) :=
  duplicate_insert_noop conf6 [row6] tx6 row6 tx6_saved (by decide)

/-! ## Retry and scan-failure lemmas (for C7 and C8) -/

theorem retryFetch_notFound (g : Nat → Except FetchError Block) (idx : Nat)
    (h : g idx = .error .NotFound) :
    ∀ r, retryFetch g idx r = .error .NotFound := by
  intro r
  cases r <;> simp [retryFetch, h]

theorem retryFetch_all_unavailable (g : Nat → Except FetchError Block) :
    ∀ r idx, (∀ a, idx ≤ a → a ≤ idx + r → g a = .error .UpstreamUnavailable) →
      retryFetch g idx r = .error .UpstreamUnavailable := by
  intro r
  induction r with
  | zero =>
    intro idx hall
    simp [retryFetch, hall idx (Nat.le_refl idx) (by omega)]
  | succ r ih =>
    intro idx hall
    have h0 : g idx = .error .UpstreamUnavailable :=
      hall idx (Nat.le_refl idx) (by omega)
    simp [retryFetch, h0]
    exact ih (idx + 1) (fun a ha hb => hall a (by omega) (by omega))

theorem attemptsUsed_le (g : Nat → Except FetchError Block) :
    ∀ r idx, attemptsUsed g idx r ≤ r + 1 := by
  intro r
  induction r with
  | zero => intro idx; exact Nat.le_refl 1
  | succ r ih =>
    intro idx
    rw [attemptsUsed]
    split
    · omega
    · omega
    · have := ih (idx + 1)
      omega

theorem runScan_fail_aux (oracle : Nat → Nat → Except FetchError Block)
    (confs : List AddressConfig) :
    ∀ (d i : Nat) (st : EngineState) (stop h : Nat),
      h - i = d → i ≤ h → h ≤ stop →
      (∀ k, k < h → i ≤ k → fetchOk (getBlockWithRetry (oracle k)) = true) →
      fetchOk (getBlockWithRetry (oracle h)) = false →
      st.cursor + 1 = i →
      (runScanRetry oracle confs st i stop).1 = .fatalExit 1 ∧
      (runScanRetry oracle confs st i stop).2.cursor = h - 1 := by
  intro d
  induction d with
  | zero =>
    intro i st stop h hd hih hhs _ hfail hcur
    have hi : i = h := by omega
    subst hi
    rw [runScanRetry, scanRange_eq, if_pos (Nat.le_trans hih hhs)]
    cases hgb : getBlockWithRetry (oracle i) with
    | ok b => rw [hgb] at hfail; exact absurd hfail (by simp [fetchOk])
    | error e =>
      simp only [runScanHeights, hgb]
      exact ⟨by trivial, by omega⟩
  | succ d ih =>
    intro i st stop h hd hih hhs hok hfail hcur
    have hi : i < h := by omega
    rw [runScanRetry, scanRange_eq, if_pos (by omega)]
    cases hgb : getBlockWithRetry (oracle i) with
    | error e =>
      have := hok i hi (Nat.le_refl i)
      rw [hgb] at this
      exact absurd this (by simp [fetchOk])
    | ok b =>
      simp only [runScanHeights, hgb]
      have hrec := ih (i + 1) ⟨i, insertAll st.table (classifyBlock confs b)⟩
        stop h (by omega) (by omega) hhs
        (fun k hk hik => hok k hk (by omega))
        hfail rfl
      rw [runScanRetry] at hrec
      exact hrec

/-! ## C7 -/

/-- Fetch oracle whose every attempt at every height reports `NotFound`,
modelling a tip that has dropped below the requested height by fetch time. -/
def cOracle7 : Nat → Nat → Except FetchError Block := fun _ _ => .error .NotFound

/-- Counterexample to C7 as stated: resuming at height 101 with tip 103, the
very first block fetch fails with `NotFound`, and the engine does not treat
this as caught up — the `catch` in `emitNewTransactions` logs a fatal error
and calls `process.exit(1)`. -/
theorem notFound_counterexample :
    cOracle7 101 0 = .error .NotFound ∧
    (runScanRetry cOracle7 [] ⟨100, []⟩ 101 103).1 = .fatalExit 1 ∧
    (runScanRetry cOracle7 [] ⟨100, []⟩ 101 103).1 ≠ .caughtUp := by
  refine ⟨rfl, by decide, by decide⟩

/-- C7 (amended): when a block fetch during the scan fails with `NotFound`
(all earlier heights of the pass having succeeded), the engine stops the scan
pass by terminating fatally with exit code 1 — it does not treat the condition
as caught up — and the cursor stays at the last committed height. -/
theorem notFound_fetch_fatal (oracle : Nat → Nat → Except FetchError Block)
    (confs : List AddressConfig) (st : EngineState) (i stop h : Nat)
    (hih : i ≤ h) (hhs : h ≤ stop)
    (hok : ∀ k, k < h → i ≤ k → fetchOk (getBlockWithRetry (oracle k)) = true)
    (hnf : oracle h 0 = .error .NotFound)
    (hcur : st.cursor + 1 = i) :
    (runScanRetry oracle confs st i stop).1 = .fatalExit 1 ∧
    (runScanRetry oracle confs st i stop).2.cursor = h - 1 := by
  have hgb : getBlockWithRetry (oracle h) = .error .NotFound :=
    retryFetch_notFound (oracle h) 0 hnf retries
  exact runScan_fail_aux oracle confs (h - i) i st stop h rfl hih hhs hok
    (by rw [hgb]; rfl) hcur

/-- Witness for C7's amended statement: `NotFound` at height 101 of a
101–103 pass ends the pass with `fatalExit 1` and cursor still 100. -/
theorem notFound_fetch_fatal_witness :
    (runScanRetry cOracle7 [] ⟨100, []⟩ 101 103).1 = .fatalExit 1 ∧
    (runScanRetry cOracle7 [] ⟨100, []⟩ 101 103).2.cursor = 100 :=
  notFound_fetch_fatal cOracle7 [] ⟨100, []⟩ 101 103 101 (by decide) (by decide)
    (fun k hk hik => absurd hik (by omega)) rfl rfl

/-! ## C8 -/

/-- C8: transient upstream failures are retried at most `retries + 1 = 3`
attempts with a delay that doubles on each successive attempt; when every
attempt at a height reports `UpstreamUnavailable` (the budget is exhausted),
the engine terminates fatally with exit code 1 and the cursor remains at the
last fully committed height `h - 1`. -/
theorem retry_exhaustion_fatal (oracle : Nat → Nat → Except FetchError Block)
    (confs : List AddressConfig) (st : EngineState) (i stop h : Nat)
    (hih : i ≤ h) (hhs : h ≤ stop)
    (hok : ∀ k, k < h → i ≤ k → fetchOk (getBlockWithRetry (oracle k)) = true)
    (hfail : ∀ a, a ≤ retries → oracle h a = .error .UpstreamUnavailable)
    (hcur : st.cursor + 1 = i) :
    exponentialDelay 1 = 2 * exponentialDelay 0 ∧
    exponentialDelay 2 = 2 * exponentialDelay 1 ∧
    attemptsUsed (oracle h) 0 retries ≤ retries + 1 ∧
    (runScanRetry oracle confs st i stop).1 = .fatalExit 1 ∧
    (runScanRetry oracle confs st i stop).2.cursor = h - 1 := by
  have hgb : getBlockWithRetry (oracle h) = .error .UpstreamUnavailable :=
    retryFetch_all_unavailable (oracle h) retries 0
      (fun a ha hb => hfail a (by omega))
  refine ⟨by decide, by decide, attemptsUsed_le (oracle h) retries 0, ?_⟩
  exact runScan_fail_aux oracle confs (h - i) i st stop h rfl hih hhs hok
    (by rw [hgb]; rfl) hcur

/-- Fetch oracle for the C8 witness: height 105 is persistently unavailable,
every other height succeeds immediately. -/
def oracle8 : Nat → Nat → Except FetchError Block :=
  fun hh _ => if hh == 105 then .error .UpstreamUnavailable else .ok ⟨hh, []⟩

/-- Witness for C8: with the cursor at 104 and height 105 failing all three
attempts, the pass ends with `fatalExit 1` and the cursor remains 104. -/
theorem retry_exhaustion_fatal_witness :
    exponentialDelay 1 = 2 * exponentialDelay 0 ∧
    exponentialDelay 2 = 2 * exponentialDelay 1 ∧
    attemptsUsed (oracle8 105) 0 retries ≤ retries + 1 ∧
    (runScanRetry oracle8 [] ⟨104, []⟩ 105 106).1 = .fatalExit 1 ∧
    (runScanRetry oracle8 [] ⟨104, []⟩ 105 106).2.cursor = 104 :=
  retry_exhaustion_fatal oracle8 [] ⟨104, []⟩ 105 106 105 (by decide) (by decide)
    (fun k hk hik => absurd hik (by omega)) (fun a ha => rfl) rfl

/-! ## Store-growth lemmas (for C9) -/

theorem insert_subset (t : List TransactionRow) (r : TransactionRow) :
    ∀ a ∈ t, a ∈ (insertUncommittedTransaction t r).2 := by
  intro a ha
  rw [insertUncommittedTransaction]
  split
  · exact ha
  · exact List.mem_append_left _ ha

theorem insertAll_subset :
    ∀ (rows t : List TransactionRow), ∀ a ∈ t, a ∈ insertAll t rows := by
  intro rows
  induction rows with
  | nil => intro t a ha; exact ha
  | cons r rs ih => intro t a ha; exact ih _ a (insert_subset t r a ha)

theorem rowKeyPresent_mono (t t' : List TransactionRow) (row : TransactionRow)
    (hsub : ∀ a ∈ t, a ∈ t') (h : rowKeyPresent t row = true) :
    rowKeyPresent t' row = true := by
  rw [rowKeyPresent, List.any_eq_true] at h ⊢
  obtain ⟨x, hx, hp⟩ := h
  exact ⟨x, hsub x hx, hp⟩

theorem rowKeyPresent_self (t : List TransactionRow) (row : TransactionRow)
    (h : row ∈ t) : rowKeyPresent t row = true := by
  rw [rowKeyPresent, List.any_eq_true]
  exact ⟨row, h, by simp⟩

theorem insert_key_present (t : List TransactionRow) (r : TransactionRow) :
    rowKeyPresent (insertUncommittedTransaction t r).2 r = true := by
  by_cases h : rowKeyPresent t r = true
  · rw [insertUncommittedTransaction, if_pos h]
    exact h
  · rw [insertUncommittedTransaction, if_neg h]
    exact rowKeyPresent_self _ _ (List.mem_append_right _ (by simp))

theorem insertAll_covers :
    ∀ (rows t : List TransactionRow), ∀ r ∈ rows,
      rowKeyPresent (insertAll t rows) r = true := by
  intro rows
  induction rows with
  | nil => intro t r hr; cases hr
  | cons a rs ih =>
    intro t r hr
    rcases List.mem_cons.mp hr with h | h
    · subst h
      exact rowKeyPresent_mono _ _ _ (insertAll_subset rs _) (insert_key_present t r)
    · exact ih _ r h

theorem insertTrace_subset :
    ∀ (rows t t' : List TransactionRow), t' ∈ insertTrace t rows →
      ∀ a ∈ t, a ∈ t' := by
  intro rows
  induction rows with
  | nil => intro t t' h; cases h
  | cons r rs ih =>
    intro t t' h a ha
    simp only [insertTrace] at h
    rcases List.mem_cons.mp h with h | h
    · subst h; exact insert_subset t r a ha
    · exact ih _ t' h a (insert_subset t r a ha)

/-! ## C9 -/

theorem scanTrace_invariant :
    ∀ (n : Nat) (blocks : Nat → Block) (confs : List AddressConfig)
      (st : EngineState) (stop : Nat),
      stop - st.cursor = n → complete blocks confs st →
      (∀ s ∈ scanTrace blocks confs st stop,
        st.cursor ≤ s.cursor ∧ complete blocks confs s) ∧
      (st :: scanTrace blocks confs st stop).Pairwise
        (fun a b => a.cursor ≤ b.cursor) := by
  intro n
  induction n with
  | zero =>
    intro blocks confs st stop hn hc
    have hnil : scanTrace blocks confs st stop = [] := by
      rw [scanTrace, scanRange_eq, if_neg (by omega)]
      rfl
    rw [hnil]
    constructor
    · intro s hs; cases hs
    · simp
  | succ n ih =>
    intro blocks confs st stop hn hc
    by_cases hle : st.cursor + 1 ≤ stop
    · have hstep : scanTrace blocks confs st stop =
          ((insertTrace st.table
              (classifyBlock confs (blocks (st.cursor + 1)))).map
            (fun t => (⟨st.cursor, t⟩ : EngineState))) ++
          (⟨st.cursor + 1,
              insertAll st.table
                (classifyBlock confs (blocks (st.cursor + 1)))⟩ : EngineState) ::
            scanTrace blocks confs
              ⟨st.cursor + 1,
                insertAll st.table
                  (classifyBlock confs (blocks (st.cursor + 1)))⟩ stop := by
        conv =>
          lhs
          rw [scanTrace, scanRange_eq, if_pos hle]
        rw [scanTraceHeights, scanTrace]
      have hcomc : complete blocks confs
          ⟨st.cursor + 1,
            insertAll st.table (classifyBlock confs (blocks (st.cursor + 1)))⟩ := by
        intro h hh r hr
        have hh2 : h ≤ st.cursor + 1 := hh
        rcases Nat.lt_or_ge h (st.cursor + 1) with hlt | hge
        · exact rowKeyPresent_mono _ _ _ (insertAll_subset _ _)
            (hc h (by omega) r hr)
        · have : h = st.cursor + 1 := by omega
          subst this
          exact insertAll_covers _ _ r hr
      obtain ⟨ih1, ih2⟩ := ih blocks confs
        ⟨st.cursor + 1,
          insertAll st.table (classifyBlock confs (blocks (st.cursor + 1)))⟩
        stop (by show stop - (st.cursor + 1) = n; omega) hcomc
      have hpres : ∀ s ∈ (insertTrace st.table
          (classifyBlock confs (blocks (st.cursor + 1)))).map
            (fun t => (⟨st.cursor, t⟩ : EngineState)),
          s.cursor = st.cursor ∧ complete blocks confs s := by
        intro s hs
        obtain ⟨t, ht, rfl⟩ := List.mem_map.mp hs
        refine ⟨rfl, ?_⟩
        intro h hh r hr
        exact rowKeyPresent_mono _ _ _ (insertTrace_subset _ _ _ ht)
          (hc h hh r hr)
      have hpart1 : ∀ s ∈ scanTrace blocks confs st stop,
          st.cursor ≤ s.cursor ∧ complete blocks confs s := by
        rw [hstep]
        intro s hs
        rcases List.mem_append.mp hs with h | h
        · obtain ⟨hcur, hcom⟩ := hpres s h
          exact ⟨by omega, hcom⟩
        · rcases List.mem_cons.mp h with h | h
          · subst h
            exact ⟨Nat.le_succ _, hcomc⟩
          · obtain ⟨hcur, hcom⟩ := ih1 s h
            have hcur2 : st.cursor + 1 ≤ s.cursor := hcur
            exact ⟨by omega, hcom⟩
      refine ⟨hpart1, ?_⟩
      rw [List.pairwise_cons]
      refine ⟨fun s hs => (hpart1 s hs).1, ?_⟩
      rw [hstep, List.pairwise_append]
      refine ⟨?_, ?_, ?_⟩
      · exact List.pairwise_of_forall_mem_list
          (fun a ha b hb => by
            rw [(hpres a ha).1, (hpres b hb).1])
      · exact ih2
      · intro a ha b hb
        have hac := (hpres a ha).1
        rcases List.mem_cons.mp hb with h | h
        · subst h
          exact le_trans (le_of_eq hac) (Nat.le_succ _)
        · have hb2 : st.cursor + 1 ≤ b.cursor := (ih1 b h).1
          omega
    · have hnil : scanTrace blocks confs st stop = [] := by
        rw [scanTrace, scanRange_eq, if_neg hle]
        rfl
      rw [hnil]
      constructor
      · intro s hs; cases hs
      · simp

/-- C9: starting a scan pass from any store state whose records are complete up
to the cursor, the cursor is monotonically non-decreasing along every
micro-step of the pass (so along every run and every crash interleaving, which
end on some prefix of the trace), and every reachable state — in particular any
state a crash between classification and persistence leaves behind — is still
complete: the cursor never points at a height whose records are not all
durably inserted. -/
theorem cursor_monotone_safe (blocks : Nat → Block)
    (confs : List AddressConfig) (st : EngineState) (stop : Nat)
    (hc : complete blocks confs st) :
    (st :: scanTrace blocks confs st stop).Pairwise
      (fun a b => a.cursor ≤ b.cursor) ∧
    ∀ s ∈ st :: scanTrace blocks confs st stop, complete blocks confs s := by
  obtain ⟨h1, h2⟩ := scanTrace_invariant (stop - st.cursor) blocks confs st stop
    rfl hc
  refine ⟨h2, ?_⟩
  intro s hs
  rcases List.mem_cons.mp hs with h | h
  · subst h; exact hc
  · exact (h1 s h).2

/-- Blocks used in the witness for C9: every height carries no transactions. -/
def wBlocks9 : Nat → Block := fun h => ⟨h, []⟩

/-- Witness for C9: a pass over heights 1 and 2 from an empty, complete store
keeps the cursor non-decreasing and every trace state complete. -/
theorem cursor_monotone_safe_witness :
    ((⟨0, []⟩ : EngineState) :: scanTrace wBlocks9 [] ⟨0, []⟩ 2).Pairwise
      (fun a b => a.cursor ≤ b.cursor) ∧
    ∀ s ∈ (⟨0, []⟩ : EngineState) :: scanTrace wBlocks9 [] ⟨0, []⟩ 2,
      complete wBlocks9 [] s :=
  cursor_monotone_safe wBlocks9 [] ⟨0, []⟩ 2 (by intro h hh r hr; cases hr)

/-! ## C10 -/

/-- An address entry satisfying `addressConfigSchema`. -/
def goodAddr : AddressConfig :=
  ⟨"FA22222222222222222222222222222222222222222222222222", "main", true, true,
    "USD"⟩

/-- A parsed config file with a valid `addresses` array but no `keys` section
(`keys` is optional in `configSchema`, so this passes joi validation). -/
def rawNoKeys : RawConfig := ⟨none, none, some [goodAddr], none⟩

/-- Counterexample to C10 as stated: `rawNoKeys` is schema-valid (joi accepts
it, applying the factomd and options defaults), is not an unreadable file, and
does not have bitcoinTax enabled — yet the constructor exits with code 1,
because `value.keys.bitcoinTax` throws a `TypeError` when the optional `keys`
section is absent and the `catch` turns it into `process.exit(1)`. -/
theorem config_missing_keys_counterexample :
    validateConfig rawNoKeys =
      .ok ⟨defaultFactomd, none, [goodAddr], ⟨none, 143400⟩⟩ ∧
    constructConfig (.ok rawNoKeys) = .exit1 := by
  exact ⟨by rfl, by rfl⟩

/-- The amended C10 contract, written from the spec's words with the one
forced change: the constructor never propagates an exception; it terminates
with exit code 1 exactly on an unreadable or unparsable file, a schema
validation error, an absent `keys` section, or bitcoinTax enabled without both
the bitcoin.tax key and secret present; otherwise the constructed fields equal
the schema-validated, defaults-applied values. -/
def configContract (readResult : Except String RawConfig) : ConfigOutcome :=
  match readResult with
  | .error _ => .exit1
  | .ok raw =>
    match validateConfig raw with
    | .error _ => .exit1
    | .ok v =>
      match v.keys with
      | none => .exit1
      | some k =>
        if k.bitcoinTax = true ∧
            (k.bitcoinTaxSecret = none ∨ k.bitcoinTaxKey = none) then
          .exit1
        else
          .ok v.factomd v.addresses k v.options

/-- C10 (amended): the `Config` constructor realises `configContract` — it
never propagates an exception, exits with code 1 exactly on the contract's
failure conditions (now including an absent `keys` section), and otherwise its
`factomd`, `addresses`, `keys` and `options` fields are the schema-validated,
defaults-applied values from the file. -/
theorem constructConfig_matches_contract (r : Except String RawConfig) :
    constructConfig r = configContract r := by
  rcases r with e | raw
  · rfl
  · cases hv : validateConfig raw with
    | error e => simp [constructConfig, configContract, hv]
    | ok v =>
      cases hk : v.keys with
      | none => simp [constructConfig, configContract, hv, hk]
      | some k =>
        simp only [constructConfig, configContract, hv, hk]
        by_cases hb : k.bitcoinTax
        · by_cases hs : k.bitcoinTaxSecret = none
          · simp [hb, hs, Option.isNone_iff_eq_none]
          · by_cases hkk : k.bitcoinTaxKey = none
            · simp [hb, hs, hkk, Option.isNone_iff_eq_none]
            · simp [hb, hs, hkk, Option.isNone_iff_eq_none]
        · simp [hb, Bool.eq_false_iff.mpr hb]

/-- A complete `keys` section with bitcoinTax enabled and both credentials. -/
def goodKeys : KeyConfig :=
  ⟨"aaaaaaaaaaaaaaaaaaaaaaaaaaaaaaaaaaaaaaaaaaaaaaaaaaaaaaaaaaaaaaaa", true,
    some "bbbbbbbbbbbbbbbbbbbbbbbbbbbbbbbb", some "cccccccccccccccc"⟩

/-- A fully supplied, schema-valid config file. -/
def rawGood : RawConfig :=
  ⟨none, some goodKeys, some [goodAddr], some ⟨some "USD", some 150000⟩⟩

/-- Witness for C10's amended statement: on a fully supplied valid file the
constructor agrees with the contract and produces the validated field
values. -/
theorem constructConfig_matches_contract_witness :
    constructConfig (.ok rawGood) = configContract (.ok rawGood) ∧
    constructConfig (.ok rawGood) =
      .ok defaultFactomd [goodAddr] goodKeys ⟨some "USD", 150000⟩ :=
  ⟨constructConfig_matches_contract (.ok rawGood), by rfl⟩
